import Mathlib

/-
Verification development for the BLab acoustic-analysis dashboard.

The repository extracts acoustic features from audio clips, stores one CSV of
(Feature, Value) rows per session in cloud object storage, and aggregates the
sessions of a task into a trend table and a per-feature trend summary.

This file embeds the aggregation and feature-summary logic shallowly:
  * numeric data is modelled by the rationals (the Python code computes with
    floats; every statistic the claims touch is exact arithmetic, and the one
    square root that appears is embedded through Real.sqrt);
  * a pandas column that may hold missing values (NaN after numeric coercion)
    is an Option;
  * code that raises is embedded as an Except-valued input or result.

Each definition names the source function it embeds and its file.
-/

/-! ## Numeric helpers

np.mean, np.min, np.max, np.median and the two variances used by
pandas .std(ddof=1) and np.std (ddof=0), over nonempty rational lists. -/

/-- Arithmetic mean: np.mean / pandas Series.mean on a nonempty list. -/
def qmean (l : List ℚ) : ℚ := l.sum / l.length

/-- np.min on a nonempty list (0 for the empty list, which the code guards). -/
def qmin : List ℚ → ℚ
  | [] => 0
  | x :: xs => xs.foldl min x

/-- np.max on a nonempty list (0 for the empty list, which the code guards). -/
def qmax : List ℚ → ℚ
  | [] => 0
  | x :: xs => xs.foldl max x

/-- np.median: sort ascending, take the middle element, or the mean of the
two middle elements when the length is even. -/
def medianQ (l : List ℚ) : ℚ :=
  let sorted := l.insertionSort (fun a b => a ≤ b)
  let n := l.length
  if n % 2 = 1 then sorted.getD (n / 2) 0
  else (sorted.getD (n / 2 - 1) 0 + sorted.getD (n / 2) 0) / 2

/-- Sample variance with ddof = 1, the quantity under the square root in
pandas Series.std(ddof=1). -/
def sampleVar (l : List ℚ) : ℚ :=
  ((l.map (fun x => (x - qmean l) ^ 2)).sum) / ((l.length : ℚ) - 1)

/-- Population variance (ddof = 0), the quantity under the square root in
np.std. -/
def popVar (l : List ℚ) : ℚ :=
  ((l.map (fun x => (x - qmean l) ^ 2)).sum) / (l.length : ℚ)

/-! ## Fundamental frequency (claim C1)

Two distinct functions named estimate_f0_praat exist in the repository:
src/analysis_utils.py lines 210-215 (median of frames with frequency > 0)
and src/split_audio_report_mode.py lines 32-37 (mean of frames with
frequency different from 0). Both return None when no voiced frame remains.
The pitch track is the array pitch.selected_array["frequency"]. -/

/-- estimate_f0_praat of src/analysis_utils.py: keep frames with f0 greater
than 0; None when none remain; otherwise np.median of the kept frames. -/
def estimate_f0_praat (f0 : List ℚ) : Option ℚ :=
  let v := f0.filter (fun x => 0 < x)
  if v = [] then none else some (medianQ v)

/-- estimate_f0_praat of src/split_audio_report_mode.py: keep frames with f0
different from 0; None when none remain; otherwise np.mean of the kept
frames. -/
def split_estimate_f0_praat (f0 : List ℚ) : Option ℚ :=
  let v := f0.filter (fun x => x ≠ 0)
  if v = [] then none else some (qmean v)

/-! ## Audio ingest downmix (claim C7)

ensure_mono of src/analysis_utils.py line 186: a 1-D array is returned as
is; a 2-D array of shape (frames, channels) is reduced by np.mean along
axis 1, the arithmetic mean across channels of each frame. -/

/-- A numpy array as soundfile returns it: 1-D mono samples, or 2-D with one
row per frame holding that frame across channels. -/
inductive Audio where
  | mono (y : List ℚ)
  | multi (y : List (List ℚ))

/-- ensure_mono of src/analysis_utils.py: identity on 1-D input, mean along
axis 1 of 2-D input. -/
def ensure_mono : Audio → List ℚ
  | .mono y => y
  | .multi y => y.map (fun fr => qmean fr)

/-- Column i of a 2-D array: one input channel of multi-channel audio. -/
def channel (y : List (List ℚ)) (i : ℕ) : List ℚ :=
  y.map (fun fr => fr.getD i 0)

/-! ## The long feature table (claims C2, C3, C5, C8, C10)

One row of the concatenated long table that both aggregation paths build:
a feature name, the session label the row was tagged with (a session folder
name in report_mode.py, the date prefix of the CSV filename in
split_audio_trend_mode.py), and the value of the Value column after numeric
coercion, none standing for NaN. -/

structure LongRow where
  feature : String
  session : String
  value : Option ℚ
deriving DecidableEq

/-- Sorted unique labels: how pandas orders the index and columns of a pivot
(ascending, one entry per distinct label). -/
def sortedUnique (l : List String) : List String :=
  (l.dedup).insertionSort (fun a b => a ≤ b)

/-- One cell of the pivot of report_mode.py line 198
(pivot_table with aggfunc first): the first row of the input, in input
order, that carries this feature and session and a non-missing value;
none (NaN) when no such row exists. -/
def pivotCell (rows : List LongRow) (f s : String) : Option ℚ :=
  (((rows.filter (fun r => r.value.isSome)).filter
      (fun r => r.feature == f && r.session == s)).head?).bind (fun r => r.value)

/-- The pivot of report_mode.py line 198: df.pivot_table(index="Feature",
columns="session", values="Value", aggfunc="first"). Rows are the distinct
features of the non-missing input rows in ascending order, columns the
distinct session labels in ascending order, and each cell holds the first
non-missing occurrence (pivot_table with dropna keeps no all-missing
feature or session). -/
def pivot_table (rows : List LongRow) : List (String × List (String × Option ℚ)) :=
  let valid := rows.filter (fun r => r.value.isSome)
  (sortedUnique (valid.map (fun r => r.feature))).map (fun f =>
    (f, (sortedUnique (valid.map (fun r => r.session))).map (fun s =>
      (s, pivotCell rows f s))))

/-- The pivot of split_audio_trend_mode.py line 81: combined_df.pivot(
index="Feature", columns="Date", values="Value"). DataFrame.pivot does not
aggregate: it raises ValueError when the input holds two rows with the same
(feature, session) pair, and otherwise places the unique value of each
pair. -/
def pivot_strict (rows : List LongRow) :
    Except String (List (String × List (String × Option ℚ))) :=
  if (rows.map (fun r => (r.feature, r.session))).Nodup then
    .ok ((sortedUnique (rows.map (fun r => r.feature))).map (fun f =>
      (f, (sortedUnique (rows.map (fun r => r.session))).map (fun s =>
        (s, (rows.find? (fun r => r.feature == f && r.session == s)).bind
          (fun r => r.value))))))
  else .error "Index contains duplicate entries, cannot reshape"

/-! ## The trend summary (claims C3, C10)

build_trend_summary of src/report_mode.py lines 50-74. -/

/-- Stable ascending sort by session label: sub.sort_values("session") of
report_mode.py line 57 (ties left in input order). -/
def sortBySession (l : List LongRow) : List LongRow :=
  l.insertionSort (fun a b => a.session ≤ b.session)

/-- The non-missing numeric values of one feature, in ascending session
order: pd.to_numeric(sub["Value"], errors="coerce").dropna() of
report_mode.py line 58 applied to the rows of this feature sorted by
session. -/
def trendVals (df : List LongRow) (feat : String) : List ℚ :=
  (sortBySession (df.filter (fun r => r.feature == feat))).filterMap (fun r => r.value)

/-- One output row of build_trend_summary. The source stores
std = sqrt(stdSq) as a float; stdSq below is the exact quantity under that
square root (the ddof = 1 sample variance when the count exceeds 1, and 0
in the branch where the source writes the literal 0.0), and the reported
std is the projection SummaryRow.std further down. -/
structure SummaryRow where
  feature : String
  count : ℕ
  first : ℚ
  last : ℚ
  change : ℚ
  mean : ℚ
  stdSq : ℚ
  min : ℚ
  max : ℚ
deriving DecidableEq

/-- The reported std value of a summary row: the square root pandas
Series.std takes of the ddof = 1 variance (Real.sqrt 0 = 0, so the count-1
branch of the source, which stores the literal 0.0, agrees). -/
noncomputable def SummaryRow.std (r : SummaryRow) : ℝ :=
  Real.sqrt r.stdSq

/-- build_trend_summary of src/report_mode.py lines 50-74: iterate the
features in first-appearance order (pandas unique), take each feature's
non-missing values sorted by session, skip the feature when none remain,
and otherwise emit count, first, last, change = last - first, mean,
std (0.0 when the count is 1), min and max over those values. -/
def build_trend_summary (df : List LongRow) : List SummaryRow :=
  ((df.map (fun r => r.feature)).dedup).filterMap (fun feat =>
    if trendVals df feat = [] then none
    else some {
      feature := feat
      count := (trendVals df feat).length
      first := (trendVals df feat).headI
      last := (trendVals df feat).getLastD 0
      change := (trendVals df feat).getLastD 0 - (trendVals df feat).headI
      mean := qmean (trendVals df feat)
      stdSq := if 1 < (trendVals df feat).length then sampleVar (trendVals df feat)
               else 0
      min := qmin (trendVals df feat)
      max := qmax (trendVals df feat) })

/-! ## The feature record (claim C6)

summarize_features exists twice: src/analysis_utils.py lines 299-345
(placeholder strings for statistics that could not be computed) and
src/split_audio_report_mode.py lines 40-52 (np.nan for such statistics).
A record value is a number (the source formats numbers into fixed-point
strings; the formatting is presentational and is modelled by the number
itself), an explicit placeholder text, or the float NaN. -/

inductive FVal where
  | num (x : ℝ)
  | txt (s : String)
  | nan

/-- The four jitter/shimmer numbers jitter_shimmer of src/analysis_utils.py
returns when none of its praat calls raises. -/
structure JSRec where
  jitter_local : ℚ
  jitter_abs : ℚ
  shimmer_local : ℚ
  shimmer_db : ℚ

/-- compute_cpp of src/analysis_utils.py lines 251-271: the praat CPPS call
is external and its outcome is the argument; an exception is caught and
becomes None, a value is returned as is. -/
def compute_cpp (praatCpps : Except String ℚ) : Option ℚ :=
  match praatCpps with
  | .ok v => some v
  | .error _ => none

/-- summarize_features of src/analysis_utils.py lines 299-345. Inputs: the
pitch track frames, the clip duration, the outcome of jitter_shimmer (the
praat calls may raise), the intensity contour values, and the outcome of
the praat CPPS call inside compute_cpp. The pitch contour statistics run
over the frames that are not 0 (pitch_contour turns 0 into NaN and the
stats are the nan-ignoring ones), guarded by np.any of the non-NaN mask;
the intensity statistics are guarded by the contour being nonempty. -/
def summarize_features (pitchFrames : List ℚ) (duration : ℚ)
    (js : Except String JSRec) (inten : List ℚ) (praatCpps : Except String ℚ) :
    List (String × FVal) :=
  [("Fundamental Freq (Hz)",
     match estimate_f0_praat pitchFrames with
     | some q => FVal.num q
     | none => FVal.txt "—"),
   ("Audio duration", FVal.num duration)]
  ++ (match js with
      | .ok j =>
        [("Jitter (local, %)", FVal.num (j.jitter_local * 100)),
         ("Jitter (abs, ms)", FVal.num (j.jitter_abs * 1000)),
         ("Shimmer (local, %)", FVal.num (j.shimmer_local * 100)),
         ("Shimmer (dB)", FVal.num j.shimmer_db)]
      | .error _ => [("Jitter/Shimmer", FVal.txt "N/A")])
  ++ (let voiced := pitchFrames.filter (fun x => x ≠ 0)
      if voiced = [] then []
      else
        [("Pitch Mean (Hz)", FVal.num (qmean voiced)),
         ("Pitch Min (Hz)", FVal.num (qmin voiced)),
         ("Pitch Max (Hz)", FVal.num (qmax voiced)),
         ("Pitch Range (Hz)", FVal.num (qmax voiced - qmin voiced))])
  ++ (if inten = [] then []
      else
        [("Energy Mean (dB)", FVal.num (qmean inten)),
         ("Energy Min (dB)", FVal.num (qmin inten)),
         ("Energy Max (dB)", FVal.num (qmax inten)),
         ("Energy Range (dB)", FVal.num (qmax inten - qmin inten))])
  ++ [("CPP (dB)",
     match compute_cpp praatCpps with
     | some v => FVal.num v
     | none => FVal.txt "-")]

/-- summarize_features of src/split_audio_report_mode.py lines 40-52: the
pitch statistics run over the frames that are not 0 and each statistic is
np.nan when no such frame exists; the intensity statistics likewise; the
stds are np.std (population, ddof = 0). -/
noncomputable def split_summarize_features (pitchFrames : List ℚ)
    (inten : List ℚ) (duration : ℚ) : List (String × FVal) :=
  let pv := pitchFrames.filter (fun x => x ≠ 0)
  [("Pitch mean (Hz)", if pv = [] then FVal.nan else FVal.num (qmean pv)),
   ("Pitch std (Hz)", if pv = [] then FVal.nan else FVal.num (Real.sqrt (popVar pv))),
   ("Pitch min (Hz)", if pv = [] then FVal.nan else FVal.num (qmin pv)),
   ("Pitch max (Hz)", if pv = [] then FVal.nan else FVal.num (qmax pv)),
   ("Intensity mean (dB)", if inten = [] then FVal.nan else FVal.num (qmean inten)),
   ("Intensity std (dB)", if inten = [] then FVal.nan else FVal.num (Real.sqrt (popVar inten))),
   ("Duration (s)", FVal.num duration)]

/-! ## The two aggregation paths (claim C5)

A session CSV parses into (Feature, Value) rows; download or parse failure
is the error case of an Except. -/

/-- One parsed row of a session feature CSV. -/
structure CsvRow where
  feature : String
  value : Option ℚ
deriving DecidableEq

/-- The session label of a trend CSV: the substring of the filename before
the first underscore (file_item.name.split("_")[0] of
src/split_audio_trend_mode.py line 67). -/
def date_of (name : String) : String :=
  (name.splitOn "_").headI

/-- The warnings of the per-file loop of src/split_audio_trend_mode.py
lines 63-74: one "Could not read" warning per file whose download or parse
raised. -/
def split_trend_warnings (files : List (String × Except String (List CsvRow))) :
    List String :=
  files.filterMap (fun f =>
    match f.2 with
    | .error e => some ("Could not read " ++ f.1 ++ ": " ++ e)
    | .ok _ => none)

/-- The concatenated long table of the same loop: the rows of each file
that parsed, in file order, tagged with the date prefix of its filename;
a file that raised contributes nothing. -/
def split_trend_rows (files : List (String × Except String (List CsvRow))) :
    List LongRow :=
  (files.filterMap (fun f =>
    match f.2 with
    | .ok rows => some (rows.map (fun c => ⟨c.feature, date_of f.1, c.value⟩))
    | .error _ => none)).flatten

/-- The table of split_audio_trend_tab, src/split_audio_trend_mode.py lines
63-81: when no file parsed the tab warns and shows no table (none);
otherwise the concatenated rows are pivoted with DataFrame.pivot, whose
ValueError on duplicate (feature, session) pairs is not caught. -/
def split_audio_trend_table (files : List (String × Except String (List CsvRow))) :
    Option (Except String (List (String × List (String × Option ℚ)))) :=
  if files.filterMap (fun f => f.2.toOption) = [] then none
  else some (pivot_strict (split_trend_rows files))

/-- fetch_all_features of src/analysis_utils.py lines 368-403, the
aggregation path report_tab uses. Input: the user folder entries as
(folder name, features.csv present and its parse outcome). Folders whose
name does not start with session_ are skipped (the startswith check is
embedded on the character lists of the strings); a features.csv whose pd.read_csv raises is
NOT caught, so the exception aborts the whole aggregation; otherwise each
file's rows are tagged with the session folder name and concatenated. -/
def fetch_all_features :
    List (String × Option (Except String (List CsvRow))) → Except String (List LongRow)
  | [] => .ok []
  | (name, entry) :: rest =>
    if ("session_".data).isPrefixOf name.data then
      match entry with
      | none => fetch_all_features rest
      | some (.error e) => .error e
      | some (.ok rows) =>
        (fetch_all_features rest).map
          (fun tail => rows.map (fun c => ⟨c.feature, name, c.value⟩) ++ tail)
    else fetch_all_features rest

/-! ## The duplicate-save guard (claims C4, C9)

report_exists_in_box and the save branch of split_audio_report_tab,
src/split_audio_report_mode.py lines 91-107 and 188-209. -/

/-- The four expected output filenames of a (date, task) pair,
src/split_audio_report_mode.py lines 95-100, in the order the save branch
uploads them. -/
def expected_names (date task : String) : List String :=
  [date ++ "_" ++ task ++ "_features.csv",
   date ++ "_" ++ task ++ "_pitch.png",
   date ++ "_" ++ task ++ "_intensity.png",
   date ++ "_" ++ task ++ "_spectrogram.png"]

/-- What report_exists_in_box returns and whether it warned. -/
structure ExistsCheck where
  result : Bool
  warned : Bool
deriving DecidableEq

/-- report_exists_in_box of src/split_audio_report_mode.py lines 91-107:
list the files of the target folder and return whether any expected name
is among them; when the listing raises, warn and return False. -/
def report_exists_in_box (listing : Except String (List String))
    (date task : String) : ExistsCheck :=
  match listing with
  | .ok existing =>
    ⟨(expected_names date task).any (fun n => existing.contains n), false⟩
  | .error _ => ⟨false, true⟩

/-- The store writes of one extraction-and-save request and whether the
already-exists warning was shown. -/
structure SaveOutcome where
  uploads : List String
  warnedExists : Bool
deriving DecidableEq

/-- The save branch of split_audio_report_tab, src/split_audio_report_mode.py
lines 188-209: when report_exists_in_box answers True, warn and upload
nothing; otherwise upload the features CSV and the three plots under the
expected names. -/
def split_audio_save (listing : Except String (List String))
    (date task : String) : SaveOutcome :=
  if (report_exists_in_box listing date task).result then ⟨[], true⟩
  else ⟨expected_names date task, false⟩

/-! ## Helper lemmas -/

lemma foldl_min_mem {α : Type} [LinearOrder α] (xs : List α) :
    ∀ x : α, xs.foldl min x ∈ x :: xs := by
  induction xs with
  | nil => intro x; simp
  | cons y ys ih =>
    intro x
    have h := ih (min x y)
    rcases List.mem_cons.mp h with h1 | h1
    · rcases min_choice x y with hc | hc
      · simp only [List.foldl_cons]
        rw [h1, hc]
        exact List.mem_cons_self _ _
      · simp only [List.foldl_cons]
        rw [h1, hc]
        exact List.mem_cons_of_mem _ (List.mem_cons_self _ _)
    · simp only [List.foldl_cons]
      exact List.mem_cons_of_mem _ (List.mem_cons_of_mem _ h1)

lemma foldl_min_le {α : Type} [LinearOrder α] (xs : List α) :
    ∀ x : α, xs.foldl min x ≤ x ∧ ∀ y ∈ xs, xs.foldl min x ≤ y := by
  induction xs with
  | nil => intro x; simp
  | cons y ys ih =>
    intro x
    obtain ⟨h1, h2⟩ := ih (min x y)
    simp only [List.foldl_cons]
    refine ⟨le_trans h1 (min_le_left _ _), ?_⟩
    intro z hz
    rcases List.mem_cons.mp hz with rfl | hz
    · exact le_trans h1 (min_le_right _ _)
    · exact h2 z hz

lemma foldl_max_mem {α : Type} [LinearOrder α] (xs : List α) :
    ∀ x : α, xs.foldl max x ∈ x :: xs := by
  induction xs with
  | nil => intro x; simp
  | cons y ys ih =>
    intro x
    have h := ih (max x y)
    rcases List.mem_cons.mp h with h1 | h1
    · rcases max_choice x y with hc | hc
      · simp only [List.foldl_cons]
        rw [h1, hc]
        exact List.mem_cons_self _ _
      · simp only [List.foldl_cons]
        rw [h1, hc]
        exact List.mem_cons_of_mem _ (List.mem_cons_self _ _)
    · simp only [List.foldl_cons]
      exact List.mem_cons_of_mem _ (List.mem_cons_of_mem _ h1)

lemma foldl_max_le {α : Type} [LinearOrder α] (xs : List α) :
    ∀ x : α, x ≤ xs.foldl max x ∧ ∀ y ∈ xs, y ≤ xs.foldl max x := by
  induction xs with
  | nil => intro x; simp
  | cons y ys ih =>
    intro x
    obtain ⟨h1, h2⟩ := ih (max x y)
    simp only [List.foldl_cons]
    refine ⟨le_trans (le_max_left _ _) h1, ?_⟩
    intro z hz
    rcases List.mem_cons.mp hz with rfl | hz
    · exact le_trans (le_max_right _ _) h1
    · exact h2 z hz

lemma qmin_spec (l : List ℚ) (h : l ≠ []) :
    qmin l ∈ l ∧ ∀ x ∈ l, qmin l ≤ x := by
  match l, h with
  | x :: xs, _ =>
    obtain ⟨h1, h2⟩ := foldl_min_le xs x
    refine ⟨foldl_min_mem xs x, ?_⟩
    intro z hz
    rcases List.mem_cons.mp hz with rfl | hz
    · exact h1
    · exact h2 z hz

lemma qmax_spec (l : List ℚ) (h : l ≠ []) :
    qmax l ∈ l ∧ ∀ x ∈ l, x ≤ qmax l := by
  match l, h with
  | x :: xs, _ =>
    obtain ⟨h1, h2⟩ := foldl_max_le xs x
    refine ⟨foldl_max_mem xs x, ?_⟩
    intro z hz
    rcases List.mem_cons.mp hz with rfl | hz
    · exact h1
    · exact h2 z hz

/-! ## Claim C7: audio downmix -/

/-- C7. For a multi-channel (2-D, rectangular with ch channels) input,
ensure_mono returns the per-frame arithmetic mean across channels, its
length equals the frame count, which is the sample count of every single
input channel; 1-D input is returned unchanged. -/
theorem ensure_mono_downmix (frames : List (List ℚ)) (ch : ℕ) (_hch : 0 < ch)
    (hrect : ∀ fr ∈ frames, fr.length = ch) :
    ensure_mono (Audio.multi frames) = frames.map (fun fr => fr.sum / (ch : ℚ)) ∧
    (ensure_mono (Audio.multi frames)).length = frames.length ∧
    (∀ i : ℕ, (channel frames i).length = frames.length) ∧
    (∀ y : List ℚ, ensure_mono (Audio.mono y) = y) := by
  refine ⟨?_, ?_, ?_, fun y => rfl⟩
  · show frames.map (fun fr => qmean fr) = _
    refine List.map_congr_left (fun fr hfr => ?_)
    rw [qmean, hrect fr hfr]
  · simp [ensure_mono]
  · intro i; simp [channel]

/-- Witness for C7 at a concrete 2-frame stereo input. -/
theorem ensure_mono_downmix_witness :
    ensure_mono (Audio.multi [[1, 3], [2, 4]]) = [2, 3] := by
  have h := (ensure_mono_downmix [[1, 3], [2, 4]] 2 (by decide) (by decide)).1
  rw [h]
  norm_num

/-! ## Claim C9: the existence check fails open -/

/-- C9. When the store listing raises, report_exists_in_box warns and
returns False, and the save branch consequently proceeds to upload all four
files. -/
theorem report_exists_fails_open (e date task : String) :
    report_exists_in_box (.error e) date task = ⟨false, true⟩ ∧
    split_audio_save (.error e) date task = ⟨expected_names date task, false⟩ := by
  constructor
  · rfl
  · simp [split_audio_save, report_exists_in_box]

/-! ## Claim C4: the duplicate-save guard -/

/-- C4. On a successful listing: when any of the four expected names is
already present, the save uploads nothing and warns; when none is present,
all four files are written, and a second request for the same (date, task)
over the grown store uploads nothing and warns. -/
theorem duplicate_save_guard (existing : List String) (date task : String) :
    ((∃ n ∈ expected_names date task, n ∈ existing) →
      split_audio_save (.ok existing) date task = ⟨[], true⟩) ∧
    ((∀ n ∈ expected_names date task, n ∉ existing) →
      split_audio_save (.ok existing) date task = ⟨expected_names date task, false⟩ ∧
      split_audio_save (.ok (existing ++ expected_names date task)) date task =
        ⟨[], true⟩) := by
  have hres : ∀ l : List String,
      ((report_exists_in_box (.ok l) date task).result = true ↔
        ∃ n ∈ expected_names date task, n ∈ l) := by
    intro l
    simp [report_exists_in_box, List.any_eq_true]
  constructor
  · intro h
    simp [split_audio_save, (hres existing).mpr h]
  · intro h
    have h1 : (report_exists_in_box (.ok existing) date task).result = false := by
      rw [Bool.eq_false_iff]
      intro hc
      obtain ⟨n, hn, hmem⟩ := (hres existing).mp hc
      exact h n hn hmem
    refine ⟨by simp [split_audio_save, h1], ?_⟩
    have h2 : (report_exists_in_box (.ok (existing ++ expected_names date task))
        date task).result = true := by
      refine (hres _).mpr ⟨date ++ "_" ++ task ++ "_features.csv", ?_, ?_⟩
      · simp [expected_names]
      · exact List.mem_append_right _ (by simp [expected_names])
    simp [split_audio_save, h2]

/-! ## Claim C1: fundamental frequency statistic -/

lemma medianQ_mem_of_odd (l : List ℚ) (h : l ≠ []) (hodd : l.length % 2 = 1) :
    medianQ l ∈ l := by
  unfold medianQ
  rw [if_pos hodd]
  have hperm := List.perm_insertionSort (fun a b : ℚ => a ≤ b) l
  have hlen : (l.insertionSort (fun a b => a ≤ b)).length = l.length :=
    hperm.length_eq
  have hlt : l.length / 2 < (l.insertionSort (fun a b => a ≤ b)).length := by
    rw [hlen]
    exact Nat.div_lt_self (List.length_pos.mpr h) (by norm_num)
  rw [List.getD_eq_getElem _ _ hlt]
  exact hperm.mem_iff.mp (List.getElem_mem _)

/-- C1 (amended). The analysis_utils extractor reports the median of the
frames with positive frequency and no numeric F0 when none remain; the
split-audio extractor reports the MEAN of the frames with nonzero
frequency and None when none remain. When the kept frame count is odd the
median is itself one of the voiced frames. -/
theorem f0_statistics (f0 : List ℚ) :
    (estimate_f0_praat f0 = none ↔ f0.filter (fun x => 0 < x) = []) ∧
    (f0.filter (fun x => 0 < x) ≠ [] →
      estimate_f0_praat f0 = some (medianQ (f0.filter (fun x => 0 < x)))) ∧
    (f0.filter (fun x => 0 < x) ≠ [] →
      (f0.filter (fun x => 0 < x)).length % 2 = 1 →
      medianQ (f0.filter (fun x => 0 < x)) ∈ f0.filter (fun x => 0 < x)) ∧
    (split_estimate_f0_praat f0 = none ↔ f0.filter (fun x => x ≠ 0) = []) ∧
    (f0.filter (fun x => x ≠ 0) ≠ [] →
      split_estimate_f0_praat f0 = some (qmean (f0.filter (fun x => x ≠ 0)))) := by
  refine ⟨?_, ?_, ?_, ?_, ?_⟩
  · by_cases hv : f0.filter (fun x => 0 < x) = [] <;>
      simp [estimate_f0_praat, hv]
  · intro hv
    simp [estimate_f0_praat, hv]
  · intro hv hodd
    exact medianQ_mem_of_odd _ hv hodd
  · by_cases hv : f0.filter (fun x => x ≠ 0) = [] <;>
      simp [split_estimate_f0_praat, hv]
  · intro hv
    simp only [split_estimate_f0_praat]
    rw [if_neg hv]

/-- Counterexample to C1 as stated: on the pitch track [100, 100, 400] the
split-audio extraction path reports the mean 200, not the median 100 of
the voiced frames. -/
theorem f0_mean_not_median_cex :
    split_estimate_f0_praat [100, 100, 400] = some 200 ∧
    estimate_f0_praat [100, 100, 400] = some 100 ∧
    split_estimate_f0_praat [100, 100, 400] ≠
      estimate_f0_praat [100, 100, 400] := by
  have hf : ([100, 100, 400] : List ℚ).filter (fun x => x ≠ 0) =
      [100, 100, 400] := by decide
  have hmean : split_estimate_f0_praat [100, 100, 400] = some 200 := by
    have h200 : qmean [100, 100, 400] = 200 := by
      norm_num [qmean, List.sum_cons, List.sum_nil]
    simp only [split_estimate_f0_praat, hf]
    rw [if_neg (by decide : ¬([100, 100, 400] : List ℚ) = []), h200]
  have hmed : estimate_f0_praat [100, 100, 400] = some 100 := by decide
  refine ⟨hmean, hmed, ?_⟩
  rw [hmean, hmed]
  decide

/-! ## Claims C3 and C10: the trend summary -/

instance : IsTotal LongRow (fun a b => a.session ≤ b.session) :=
  ⟨fun a b => le_total a.session b.session⟩

instance : IsTrans LongRow (fun a b => a.session ≤ b.session) :=
  ⟨fun _ _ _ hab hbc => le_trans hab hbc⟩

lemma sortBySession_sorted (l : List LongRow) :
    List.Sorted (fun a b : String => a ≤ b)
      ((sortBySession l).map (fun r => r.session)) :=
  List.pairwise_map.mpr
    (List.sorted_insertionSort (fun a b : LongRow => a.session ≤ b.session) l)

lemma sampleVar_nonneg (l : List ℚ) (h : 1 < l.length) : 0 ≤ sampleVar l := by
  unfold sampleVar
  apply div_nonneg
  · apply List.sum_nonneg
    intro x hx
    obtain ⟨y, _, rfl⟩ := List.mem_map.mp hx
    positivity
  · have h1 : (1 : ℚ) < l.length := by exact_mod_cast h
    linarith

lemma mem_build_trend_summary {df : List LongRow} {r : SummaryRow}
    (hr : r ∈ build_trend_summary df) :
    ∃ feat, trendVals df feat ≠ [] ∧
      r = { feature := feat
            count := (trendVals df feat).length
            first := (trendVals df feat).headI
            last := (trendVals df feat).getLastD 0
            change := (trendVals df feat).getLastD 0 - (trendVals df feat).headI
            mean := qmean (trendVals df feat)
            stdSq := if 1 < (trendVals df feat).length then
                       sampleVar (trendVals df feat)
                     else 0
            min := qmin (trendVals df feat)
            max := qmax (trendVals df feat) } := by
  unfold build_trend_summary at hr
  rw [List.mem_filterMap] at hr
  obtain ⟨feat, _hfeat, hsome⟩ := hr
  by_cases hv : trendVals df feat = []
  · rw [if_pos hv] at hsome
    cases hsome
  · rw [if_neg hv] at hsome
    exact ⟨feat, hv, (Option.some.inj hsome).symm⟩

/-- C3. Every trend summary row is computed over the non-missing values of
its feature in ascending session order: count, first, last, mean, min and
max all describe that one list, change equals last minus first exactly,
the reported std is 0 when the count is 1, and its square times
(count - 1) recovers the sum of squared deviations (the ddof = 1 sample
variance) when the count exceeds 1. -/
theorem trend_summary_stats (df : List LongRow) (r : SummaryRow)
    (hr : r ∈ build_trend_summary df) :
    trendVals df r.feature ≠ [] ∧
    r.count = (trendVals df r.feature).length ∧
    r.first = (trendVals df r.feature).headI ∧
    r.last = (trendVals df r.feature).getLastD 0 ∧
    r.change = r.last - r.first ∧
    r.mean * (r.count : ℚ) = (trendVals df r.feature).sum ∧
    (r.min ∈ trendVals df r.feature ∧ ∀ x ∈ trendVals df r.feature, r.min ≤ x) ∧
    (r.max ∈ trendVals df r.feature ∧ ∀ x ∈ trendVals df r.feature, x ≤ r.max) ∧
    List.Sorted (fun a b : String => a ≤ b)
      ((sortBySession (df.filter (fun row => row.feature == r.feature))).map
        (fun row => row.session)) ∧
    (r.count = 1 → r.std = 0) ∧
    (1 < r.count → 0 ≤ r.std ∧
      r.std ^ 2 * ((r.count : ℝ) - 1) =
        ((((trendVals df r.feature).map (fun x => (x - r.mean) ^ 2)).sum : ℚ) : ℝ)) := by
  obtain ⟨feat, hv, hreq⟩ := mem_build_trend_summary hr
  subst hreq
  have hlenpos : 0 < (trendVals df feat).length := List.length_pos.mpr hv
  refine ⟨hv, rfl, rfl, rfl, rfl, ?_, ?_, ?_, ?_, ?_, ?_⟩
  · show qmean (trendVals df feat) * ((trendVals df feat).length : ℚ) = _
    rw [qmean, div_mul_cancel₀]
    exact Nat.cast_ne_zero.mpr hlenpos.ne'
  · exact qmin_spec _ hv
  · exact qmax_spec _ hv
  · exact sortBySession_sorted _
  · intro h1
    have hlen : (trendVals df feat).length = 1 := h1
    simp [SummaryRow.std, hlen, Real.sqrt_zero]
  · intro h2
    have hlen2 : 1 < (trendVals df feat).length := h2
    have hvar : (0 : ℚ) ≤ sampleVar (trendVals df feat) := sampleVar_nonneg _ hlen2
    have hstd : SummaryRow.std
        { feature := feat
          count := (trendVals df feat).length
          first := (trendVals df feat).headI
          last := (trendVals df feat).getLastD 0
          change := (trendVals df feat).getLastD 0 - (trendVals df feat).headI
          mean := qmean (trendVals df feat)
          stdSq := if 1 < (trendVals df feat).length then
                     sampleVar (trendVals df feat)
                   else 0
          min := qmin (trendVals df feat)
          max := qmax (trendVals df feat) } =
        Real.sqrt ((sampleVar (trendVals df feat) : ℚ) : ℝ) := by
      simp [SummaryRow.std, hlen2]
    refine ⟨by rw [hstd]; exact Real.sqrt_nonneg _, ?_⟩
    rw [hstd, Real.sq_sqrt (by exact_mod_cast hvar)]
    have hne : ((trendVals df feat).length : ℚ) - 1 ≠ 0 := by
      have : (1 : ℚ) < (trendVals df feat).length := by exact_mod_cast hlen2
      intro hc
      rw [sub_eq_zero] at hc
      rw [← hc] at this
      exact lt_irrefl _ this
    have hq : sampleVar (trendVals df feat) * (((trendVals df feat).length : ℚ) - 1) =
        ((trendVals df feat).map (fun x => (x - qmean (trendVals df feat)) ^ 2)).sum := by
      rw [sampleVar, div_mul_cancel₀ _ hne]
    show ((sampleVar (trendVals df feat) : ℚ) : ℝ) * _ = _
    exact_mod_cast hq

/-- Witness for C3 at the one-row table [("a", "s", 5)]: std is exactly 0
for the count-1 feature and change equals last minus first. -/
theorem trend_summary_stats_witness :
    (⟨"a", 1, 5, 5, 0, 5, 0, 5, 5⟩ : SummaryRow).std = 0 ∧
    (⟨"a", 1, 5, 5, 0, 5, 0, 5, 5⟩ : SummaryRow).change =
      (⟨"a", 1, 5, 5, 0, 5, 0, 5, 5⟩ : SummaryRow).last -
        (⟨"a", 1, 5, 5, 0, 5, 0, 5, 5⟩ : SummaryRow).first := by
  have hvals : trendVals [⟨"a", "s", some 5⟩] "a" = [5] := by decide
  have hmem : (⟨"a", 1, 5, 5, 0, 5, 0, 5, 5⟩ : SummaryRow) ∈
      build_trend_summary [⟨"a", "s", some 5⟩] := by
    refine List.mem_filterMap.mpr ⟨"a", by decide, ?_⟩
    show (if trendVals [⟨"a", "s", some 5⟩] "a" = [] then none
          else some _) = some (⟨"a", 1, 5, 5, 0, 5, 0, 5, 5⟩ : SummaryRow)
    rw [hvals, if_neg (by decide : ¬([5] : List ℚ) = [])]
    norm_num [SummaryRow.mk.injEq, qmean, qmin, qmax]
  have h := trend_summary_stats [⟨"a", "s", some 5⟩] ⟨"a", 1, 5, 5, 0, 5, 0, 5, 5⟩ hmem
  exact ⟨h.2.2.2.2.2.2.2.2.2.1 rfl, h.2.2.2.2.1⟩

/-- C10. Every trend summary row has count at least 1, and a feature whose
values are all missing after numeric coercion is omitted from the summary
entirely. -/
theorem trend_summary_rows_nonempty (df : List LongRow) :
    (∀ r ∈ build_trend_summary df, 1 ≤ r.count) ∧
    (∀ feat, trendVals df feat = [] →
      ∀ r ∈ build_trend_summary df, r.feature ≠ feat) := by
  constructor
  · intro r hr
    obtain ⟨feat, hv, hreq⟩ := mem_build_trend_summary hr
    subst hreq
    exact List.length_pos.mpr hv
  · intro feat hfeat r hr
    obtain ⟨feat2, hv, hreq⟩ := mem_build_trend_summary hr
    subst hreq
    intro hc
    have : trendVals df feat2 = [] := by
      show trendVals df feat2 = []
      have hfe : feat2 = feat := hc
      rw [hfe]
      exact hfeat
    exact hv this

/-! ## Claims C2 and C8: the pivot -/

lemma sortedUnique_nodup (l : List String) : (sortedUnique l).Nodup :=
  ((List.perm_insertionSort _ _).nodup_iff).mpr (List.nodup_dedup l)

lemma sortedUnique_perm_eq {l₁ l₂ : List String} (h : l₁.Perm l₂) :
    sortedUnique l₁ = sortedUnique l₂ :=
  List.eq_of_perm_of_sorted
    (((List.perm_insertionSort _ _).trans h.dedup).trans
      (List.perm_insertionSort _ _).symm)
    (List.sorted_insertionSort _ _) (List.sorted_insertionSort _ _)

lemma nodup_const_len_le_one {α β : Type} (l : List α) (g : α → β) (c : β)
    (hnd : (l.map g).Nodup) (hall : ∀ q ∈ l, g q = c) : l.length ≤ 1 := by
  match l with
  | [] => simp
  | [a] => simp
  | a :: b :: rest =>
    exfalso
    have ha := hall a (by simp)
    have hb := hall b (by simp)
    have h1 : (g a :: g b :: rest.map g).Nodup := by simpa using hnd
    have h2 : g a ≠ g b := by
      intro hc
      exact (List.nodup_cons.mp h1).1 (by rw [hc]; exact List.mem_cons_self _ _)
    rw [ha, hb] at h2
    exact h2 rfl

lemma perm_eq_of_length_le_one {α : Type} {l₁ l₂ : List α} (h : l₁.Perm l₂)
    (hl : l₁.length ≤ 1) : l₁ = l₂ := by
  match l₁, hl with
  | [], _ => exact (List.perm_nil.mp h.symm).symm
  | [a], _ => exact List.singleton_perm.mp h
  | a :: b :: rest, hl => exact absurd hl (by simp)

lemma filter_pair_len_le_one (rows : List LongRow) (f s : String)
    (hnodup : ((rows.filter (fun r => r.value.isSome)).map
      (fun r => (r.feature, r.session))).Nodup) :
    ((rows.filter (fun r => r.value.isSome)).filter
      (fun r => r.feature == f && r.session == s)).length ≤ 1 := by
  apply nodup_const_len_le_one _ (fun r : LongRow => (r.feature, r.session)) (f, s)
  · exact hnodup.sublist ((List.filter_sublist _).map _)
  · intro q hq
    have hcond := (List.mem_filter.mp hq).2
    simp only [Bool.and_eq_true, beq_iff_eq] at hcond
    rw [hcond.1, hcond.2]

lemma pivotCell_perm (rows rows2 : List LongRow) (hperm : rows.Perm rows2)
    (hnodup : ((rows.filter (fun r => r.value.isSome)).map
      (fun r => (r.feature, r.session))).Nodup) (f s : String) :
    pivotCell rows f s = pivotCell rows2 f s := by
  unfold pivotCell
  have hp : ((rows.filter (fun r => r.value.isSome)).filter
        (fun r => r.feature == f && r.session == s)).Perm
      ((rows2.filter (fun r => r.value.isSome)).filter
        (fun r => r.feature == f && r.session == s)) :=
    (hperm.filter _).filter _
  rw [perm_eq_of_length_le_one hp (filter_pair_len_le_one rows f s hnodup)]

/-- C2 (amended). The report-path pivot (pivot_table, aggfunc first) has
exactly one cell per (feature, session) pair — features and sessions each
appear once — and on duplicate (feature, session) rows the first
non-missing occurrence in input order is the value kept; the split-trend
path pivot (DataFrame.pivot) instead raises on any duplicate
(feature, session) pair. -/
theorem pivot_first_wins (rows : List LongRow) :
    ((pivot_table rows).map Prod.fst).Nodup ∧
    (∀ p ∈ pivot_table rows, (p.2.map Prod.fst).Nodup) ∧
    (∀ pre r post, rows = pre ++ r :: post → r.value.isSome →
      (∀ q ∈ pre, q.value.isSome →
        ¬(q.feature = r.feature ∧ q.session = r.session)) →
      pivotCell rows r.feature r.session = r.value) ∧
    (¬ (rows.map (fun r => (r.feature, r.session))).Nodup →
      pivot_strict rows = .error "Index contains duplicate entries, cannot reshape") := by
  refine ⟨?_, ?_, ?_, ?_⟩
  · simp only [pivot_table, List.map_map]
    have : (Prod.fst ∘ fun f =>
        (f, (sortedUnique ((rows.filter (fun r => r.value.isSome)).map
          (fun r => r.session))).map (fun s => (s, pivotCell rows f s)))) =
        fun f => f := rfl
    rw [this]
    simpa using sortedUnique_nodup _
  · intro p hp
    simp only [pivot_table, List.mem_map] at hp
    obtain ⟨f, _, rfl⟩ := hp
    simp only [List.map_map]
    have : (Prod.fst ∘ fun s => (s, pivotCell rows f s)) = fun s => s := rfl
    rw [this]
    simpa using sortedUnique_nodup _
  · intro pre r post hrows hsome hfirst
    subst hrows
    have hpre : (pre.filter (fun q => q.value.isSome)).filter
        (fun q => q.feature == r.feature && q.session == r.session) = [] := by
      rw [List.filter_eq_nil_iff]
      intro q hq
      obtain ⟨hqpre, hqsome⟩ := List.mem_filter.mp hq
      simp only [Bool.and_eq_true, beq_iff_eq, not_and]
      intro h1 h2
      exact hfirst q hqpre hqsome ⟨h1, h2⟩
    unfold pivotCell
    simp [List.filter_append, List.filter_cons, hsome, hpre]
  · intro h
    simp [pivot_strict, h]

/-- Counterexample to C2 as stated: on a table holding two rows for the
same (feature, session) pair the split-trend pivot raises instead of
keeping the first occurrence, while the report-path cell does keep the
first occurrence. -/
theorem pivot_duplicate_abort_cex :
    pivot_strict [⟨"F", "s", some 1⟩, ⟨"F", "s", some 2⟩] =
      .error "Index contains duplicate entries, cannot reshape" ∧
    pivotCell [⟨"F", "s", some 1⟩, ⟨"F", "s", some 2⟩] "F" "s" = some 1 := by
  constructor
  · have h : ¬ (([⟨"F", "s", some 1⟩, ⟨"F", "s", some 2⟩] : List LongRow).map
        (fun r => (r.feature, r.session))).Nodup := by decide
    simp [pivot_strict, h]
  · decide

/-- C8. The trend pivot is idempotent and deterministic: on the same row
list it yields the same table, and on any re-enumeration (permutation) of
a duplicate-free row set it yields the identical table. -/
theorem pivot_deterministic (rows rows2 : List LongRow) (hperm : rows.Perm rows2)
    (hnodup : ((rows.filter (fun r => r.value.isSome)).map
      (fun r => (r.feature, r.session))).Nodup) :
    pivot_table rows = pivot_table rows ∧ pivot_table rows = pivot_table rows2 := by
  refine ⟨rfl, ?_⟩
  have hvalid : (rows.filter (fun r => r.value.isSome)).Perm
      (rows2.filter (fun r => r.value.isSome)) := hperm.filter _
  have hfeat : sortedUnique ((rows.filter (fun r => r.value.isSome)).map
        (fun r => r.feature)) =
      sortedUnique ((rows2.filter (fun r => r.value.isSome)).map
        (fun r => r.feature)) :=
    sortedUnique_perm_eq (hvalid.map _)
  have hsess : sortedUnique ((rows.filter (fun r => r.value.isSome)).map
        (fun r => r.session)) =
      sortedUnique ((rows2.filter (fun r => r.value.isSome)).map
        (fun r => r.session)) :=
    sortedUnique_perm_eq (hvalid.map _)
  simp only [pivot_table]
  rw [hfeat, hsess]
  refine List.map_congr_left (fun f _ => ?_)
  refine congrArg (fun t => (f, t)) ?_
  exact List.map_congr_left (fun s _ =>
    congrArg (fun t => (s, t)) (pivotCell_perm rows rows2 hperm hnodup f s))

/-- Witness for C8: a two-row table and its reversal pivot to the identical
table. -/
theorem pivot_deterministic_witness :
    pivot_table [⟨"F", "s1", some 1⟩, ⟨"G", "s1", some 2⟩] =
      pivot_table [⟨"F", "s1", some 1⟩, ⟨"G", "s1", some 2⟩] ∧
    pivot_table [⟨"F", "s1", some 1⟩, ⟨"G", "s1", some 2⟩] =
      pivot_table [⟨"G", "s1", some 2⟩, ⟨"F", "s1", some 1⟩] :=
  pivot_deterministic _ _ (by decide) (by decide)

/-! ## Claim C5: partial aggregation on malformed files -/

/-- C5 (amended). In the split-trend path a file whose download or parse
raised is skipped — it contributes no rows, only a warning naming it — and
whenever at least one file parsed a table is produced from the parsed
rows; in the fetch_all_features path (used by report_tab) a session file
whose parse raises aborts the whole aggregation with that error. -/
theorem trend_skip_malformed (files : List (String × Except String (List CsvRow))) :
    (∀ pre name e post,
      files = pre ++ (name, Except.error e) :: post →
      split_trend_rows files = split_trend_rows (pre ++ post) ∧
      ("Could not read " ++ name ++ ": " ++ e) ∈ split_trend_warnings files) ∧
    ((∃ f ∈ files, (f.2.toOption).isSome) → (split_audio_trend_table files).isSome) ∧
    (∀ (pre post : List (String × Option (Except String (List CsvRow)))) (name e : String),
      ("session_".data).isPrefixOf name.data = true →
      ∃ e2, fetch_all_features (pre ++ (name, some (Except.error e)) :: post) =
        .error e2) := by
  refine ⟨?_, ?_, ?_⟩
  · intro pre name e post hfiles
    subst hfiles
    constructor
    · simp [split_trend_rows, List.filterMap_append]
    · simp [split_trend_warnings, List.filterMap_append]
  · rintro ⟨f, hf, hsome⟩
    have hne : files.filterMap (fun f => f.2.toOption) ≠ [] := by
      intro hc
      rw [List.filterMap_eq_nil_iff] at hc
      rw [hc f hf] at hsome
      cases hsome
    simp only [split_audio_trend_table]
    rw [if_neg hne]
    rfl
  · intro pre post name e hname
    induction pre with
    | nil =>
      refine ⟨e, ?_⟩
      rw [List.nil_append]
      simp only [fetch_all_features]
      rw [if_pos hname]
    | cons p pre ih =>
      obtain ⟨e2, he2⟩ := ih
      obtain ⟨pname, pentry⟩ := p
      rw [List.cons_append]
      by_cases hp : ("session_".data).isPrefixOf pname.data = true
      · rcases pentry with _ | entry
        · refine ⟨e2, ?_⟩
          simp only [fetch_all_features]
          rw [if_pos hp]
          exact he2
        · rcases entry with e3 | rows
          · refine ⟨e3, ?_⟩
            simp only [fetch_all_features]
            rw [if_pos hp]
          · refine ⟨e2, ?_⟩
            simp only [fetch_all_features]
            rw [if_pos hp]
            show (fetch_all_features (pre ++ (name, some (Except.error e)) :: post)).map
                (fun tail => rows.map (fun c => ⟨c.feature, pname, c.value⟩) ++ tail) =
              Except.error e2
            rw [he2]
            rfl
      · refine ⟨e2, ?_⟩
        simp only [fetch_all_features]
        rw [if_neg hp]
        exact he2

/-- Counterexample to C5 as stated: two session folders, the first parses,
the second is malformed; fetch_all_features aborts with the parse error
instead of returning the table of the file that parsed. -/
theorem fetch_abort_cex :
    fetch_all_features
      [("session_a", some (Except.ok [⟨"F", some 1⟩])),
       ("session_b", some (Except.error "ParserError"))] =
      .error "ParserError" := by
  rfl

/-! ## Claim C6: missing statistics -/

lemma lookup_append (k : String) (l₁ l₂ : List (String × FVal)) :
    (l₁ ++ l₂).lookup k =
      match l₁.lookup k with
      | some v => some v
      | none => l₂.lookup k := by
  induction l₁ with
  | nil => rfl
  | cons a l ih =>
    obtain ⟨ka, va⟩ := a
    cases h : (k == ka) with
    | true => simp [List.lookup, h]
    | false => simp [List.lookup, h, ih]

lemma lookup_ite (k : String) (c : Prop) [Decidable c]
    (l₁ l₂ : List (String × FVal)) (h₁ : l₁.lookup k = none)
    (h₂ : l₂.lookup k = none) : (if c then l₁ else l₂).lookup k = none := by
  by_cases hc : c
  · rw [if_pos hc]; exact h₁
  · rw [if_neg hc]; exact h₂

/-- C6 (amended). In the analysis_utils extraction path every statistic
that could not be computed appears as an explicit placeholder text — the
em dash for a fundamental frequency without voiced frames, N/A when the
jitter/shimmer praat calls raise, a hyphen when the CPPS call raises — a
placeholder is never the number zero, and a CPP entry is present whatever
the praat outcome (the exception is caught, not propagated). In the
split-audio extraction path a statistic over an empty frame set is instead
recorded as the float NaN. -/
theorem missing_value_placeholders :
    (∀ p d js i c, estimate_f0_praat p = none →
      (summarize_features p d js i c).lookup "Fundamental Freq (Hz)" =
        some (FVal.txt "—")) ∧
    (∀ p d i c e, (summarize_features p d (.error e) i c).lookup "Jitter/Shimmer" =
      some (FVal.txt "N/A")) ∧
    (∀ p d js i e, (summarize_features p d js i (.error e)).lookup "CPP (dB)" =
      some (FVal.txt "-")) ∧
    (∀ s x, FVal.txt s ≠ FVal.num x) ∧
    (∀ p d js i c, ((summarize_features p d js i c).lookup "CPP (dB)").isSome) ∧
    (∀ p i d, p.filter (fun x => x ≠ 0) = [] →
      (split_summarize_features p i d).lookup "Pitch mean (Hz)" = some FVal.nan) := by
  refine ⟨?_, ?_, ?_, ?_, ?_, ?_⟩
  · intro p d js i c hf0
    simp [summarize_features, hf0, lookup_append, List.lookup]
  · intro p d i c e
    by_cases hv : ∀ a ∈ p, a = 0 <;> by_cases hi : i = [] <;>
      simp [summarize_features, lookup_append, List.lookup, hv, hi]
  · intro p d js i e
    rcases js with e1 | j <;>
      simp [summarize_features, lookup_append, List.lookup, lookup_ite,
        compute_cpp]
  · intro s x h
    cases h
  · intro p d js i c
    rcases js with e1 | j <;> rcases c with e2 | v <;>
      simp [summarize_features, lookup_append, List.lookup, lookup_ite,
        compute_cpp]
  · intro p i d hv
    simp at hv
    simp [split_summarize_features, List.lookup, if_pos hv]

/-- Counterexample to C6 as stated: with no voiced frame the split-audio
summarize_features records the float NaN for the pitch statistics, which
is neither a placeholder string nor any number. -/
theorem split_summarize_nan_cex :
    (split_summarize_features [] [50] 2).lookup "Pitch mean (Hz)" = some FVal.nan ∧
    (∀ s, FVal.nan ≠ FVal.txt s) ∧ (∀ x, FVal.nan ≠ FVal.num x) := by
  refine ⟨?_, ?_, ?_⟩
  · rfl
  · intro s h
    cases h
  · intro x h
    cases h
